import Mathlib

/-!
Verification of the sql-driver command-line database administration tool.

The definitions below are a shallow embedding of the repository's Python
sources (`src/utils.py`, `src/schemas.py`, `src/driver.py`, `src/main.py`).
Pure functions become Lean functions; the per-invocation control flow of
`main` becomes an explicit outcome value; fallible code returns `Except`.
External collaborators (the SQL toolkit, the migration layer, Python library
parsers for floats/decimals/dates/UUIDs) are either modelled from their
documented behaviour where a claim depends on them (`int`, `str.strip`,
`str.lower`, `base64.b64decode`) or passed in as parameters where no claim
does.
-/

set_option autoImplicit false

/-- Whitespace characters removed by Python `str.strip()` (ASCII subset). -/
def isPySpace (c : Char) : Bool :=
  c = ' ' || c = '\t' || c = '\n' || c = '\x0d' || c = '\x0b' || c = '\x0c'

/-- Model of Python `str.strip()`: remove leading and trailing whitespace. -/
def pyStrip (s : String) : String :=
  String.mk (((s.toList.dropWhile isPySpace).reverse.dropWhile isPySpace).reverse)

/-- Model of Python `str.lower()` (ASCII letters). -/
def pyLower (s : String) : String :=
  String.mk (s.toList.map Char.toLower)

/-- Digit run of a Python base-10 integer literal after the first digit:
digits, with single underscores allowed only between digits. -/
def pyIntTail : List Char → Bool
  | [] => true
  | '_' :: c :: rest => c.isDigit && pyIntTail rest
  | c :: rest => c.isDigit && pyIntTail rest

/-- Body of a Python base-10 integer literal (sign already removed):
nonempty, starts with a digit, then `pyIntTail`. -/
def pyIntBody : List Char → Bool
  | [] => false
  | c :: rest => c.isDigit && pyIntTail rest

/-- Numeric value of a digit string (underscores already removed). -/
def digitsVal (l : List Char) : Nat :=
  l.foldl (fun a c => a * 10 + (c.toNat - 48)) 0

/-- Model of Python `int(str)`: strips surrounding whitespace, accepts an
optional sign followed by base-10 digits with single internal underscores;
raises `ValueError` (here: `Except.error`) otherwise. -/
def pyIntParse (s : String) : Except String Int :=
  let t := pyStrip s
  let (neg, body) :=
    match t.toList with
    | '-' :: r => (true, r)
    | '+' :: r => (false, r)
    | l => (false, l)
  if pyIntBody body then
    let n : Nat := digitsVal (body.filter (fun c => c ≠ '_'))
    Except.ok (if neg then -(n : Int) else (n : Int))
  else
    Except.error ("invalid literal for int() with base 10: '" ++ s ++ "'")

/-- Value of a character in the standard base64 alphabet, if any. -/
def b64Index (c : Char) : Option Nat :=
  if 'A' ≤ c ∧ c ≤ 'Z' then some (c.toNat - 65)
  else if 'a' ≤ c ∧ c ≤ 'z' then some (c.toNat - 97 + 26)
  else if '0' ≤ c ∧ c ≤ '9' then some (c.toNat - 48 + 52)
  else if c = '+' then some 62
  else if c = '/' then some 63
  else none

/-- Model of CPython `binascii.a2b_base64` in non-strict mode, as called by
`base64.b64decode(s)` with `validate=False`: characters outside the base64
alphabet are discarded, `'='` completes a quad of two or three data
characters — decoding stops at the first completed padding quad and all
remaining input is ignored — and a trailing incomplete quad is an error.
State: remaining characters, position inside the current quad (0-3), carried
bits, and the count of pad characters seen at quad position 2. -/
def b64Run : List Char → Nat → Nat → Nat → Except String (List Nat)
  | [], 0, _, _ => Except.ok []
  | [], 1, _, _ => Except.error "Invalid base64-encoded string"
  | [], _, _, _ => Except.error "Incorrect padding"
  | c :: rest, qp, left, pads =>
    if c = '=' then
      if qp = 3 then Except.ok []
      else if qp = 2 then
        if pads = 1 then Except.ok []
        else b64Run rest 2 left 1
      else b64Run rest qp left pads
    else
      match b64Index c with
      | none => b64Run rest qp left pads
      | some v =>
        match qp with
        | 0 => b64Run rest 1 v 0
        | 1 => (b64Run rest 2 (v % 16) 0).map (fun t => (left * 4 + v / 16) :: t)
        | 2 => (b64Run rest 3 (v % 4) 0).map (fun t => (left * 16 + v / 4) :: t)
        | _ => (b64Run rest 0 0 0).map (fun t => (left * 64 + v) :: t)

/-- Model of Python `base64.b64decode(s)` (default `validate=False`). -/
def pyB64Decode (s : String) : Except String (List Nat) :=
  b64Run s.toList 0 0 0

/-- Claim-side definition: a string is valid *standard* base64 — only
alphabet characters in complete quads, with `'='` padding allowed solely at
the last one or two positions. Written from the spec's words, to be compared
with the behaviour of `pyB64Decode`. -/
def stdB64Quads : List Char → Bool
  | [] => true
  | a :: b :: c :: d :: rest =>
    (b64Index a).isSome && (b64Index b).isSome &&
      (if rest.isEmpty then
        ((b64Index c).isSome && (b64Index d).isSome) ||
          ((b64Index c).isSome && d = '=') ||
          (c = '=' && d = '=')
      else (b64Index c).isSome && (b64Index d).isSome && stdB64Quads rest)
  | _ => false

/-- Claim-side definition: valid standard base64 text. -/
def isStdBase64 (s : String) : Bool :=
  stdB64Quads s.toList

/-- The closed enumeration of column type names (`ColumnTypes` in
`src/schemas.py`). -/
inductive ColumnTypes where
  | ARRAY | BIGINT | BINARY | BLOB | BOOLEAN | CHAR | CLOB | DATE
  | DATETIME | DECIMAL | DOUBLE | FLOAT | INT | INTEGER | JSON | NCHAR
  | NULLTYPE | NUMERIC | NVARCHAR | REAL | SMALLINT | STRINGTYPE | TEXT
  | TIME | TIMESTAMP | UUID | VARBINARY | VARCHAR | DOUBLE_PRECISION
deriving DecidableEq, Repr

/-- The string value of each `ColumnTypes` member. -/
def typeName : ColumnTypes → String
  | .ARRAY => "ARRAY" | .BIGINT => "BIGINT" | .BINARY => "BINARY"
  | .BLOB => "BLOB" | .BOOLEAN => "BOOLEAN" | .CHAR => "CHAR"
  | .CLOB => "CLOB" | .DATE => "DATE" | .DATETIME => "DATETIME"
  | .DECIMAL => "DECIMAL" | .DOUBLE => "DOUBLE" | .FLOAT => "FLOAT"
  | .INT => "INT" | .INTEGER => "INTEGER" | .JSON => "JSON"
  | .NCHAR => "NCHAR" | .NULLTYPE => "NULLTYPE" | .NUMERIC => "NUMERIC"
  | .NVARCHAR => "NVARCHAR" | .REAL => "REAL" | .SMALLINT => "SMALLINT"
  | .STRINGTYPE => "STRINGTYPE" | .TEXT => "TEXT" | .TIME => "TIME"
  | .TIMESTAMP => "TIMESTAMP" | .UUID => "UUID" | .VARBINARY => "VARBINARY"
  | .VARCHAR => "VARCHAR" | .DOUBLE_PRECISION => "DOUBLE_PRECISION"

/-- A table column (`Column` in `src/schemas.py`): two columns are equal iff
all four fields match, which is the derived structure equality. -/
structure Column where
  name : String
  nullable : Bool
  primary_key : Bool
  type : ColumnTypes
deriving DecidableEq, Repr

/-- A typed SQL value produced by the value caster. Values whose textual
parsing is delegated to Python library parsers keep their parsed payload
abstractly alongside the source text. -/
inductive SqlValue where
  | null
  | int (n : Int)
  | bool (b : Bool)
  | bytes (bs : List Nat)
  | str (s : String)
  | real (repr : String)
  | dec (repr : String)
  | datetime (repr : String)
  | date (repr : String)
  | time (repr : String)
  | uuid (repr : String)
deriving DecidableEq, Repr

/-- The components interpolated into the `ValueError` raised by
`cast_sql_value` (`src/utils.py`): the value string as used by the cast, the
target column type, and the description of the underlying failure. -/
structure CastErr where
  value : String
  ctype : ColumnTypes
  cause : String
deriving DecidableEq, Repr

/-- External Python library parsers delegated to by `cast_sql_value` that no
claim exercises (`float`, `Decimal`, `datetime/date/time.fromisoformat`,
`UUID`). Passed as parameters; every theorem about the caster holds for all
choices of these parsers. -/
structure ExtParsers where
  floatP : String → Except String SqlValue
  decP : String → Except String SqlValue
  datetimeP : String → Except String SqlValue
  dateP : String → Except String SqlValue
  timeP : String → Except String SqlValue
  uuidP : String → Except String SqlValue

/-- A stand-in parser pack used only to state closed instances whose
branches never consult the external parsers. -/
def trivParsers : ExtParsers :=
  ⟨fun s => Except.ok (SqlValue.real s), fun s => Except.ok (SqlValue.dec s),
   fun s => Except.ok (SqlValue.datetime s), fun s => Except.ok (SqlValue.date s),
   fun s => Except.ok (SqlValue.time s), fun s => Except.ok (SqlValue.uuid s)⟩

/-- The boolean true literals of the BOOLEAN cast branch. -/
def boolTrueLiterals : List String := ["1", "true", "yes", "on"]

/-- Model of `cast_sql_value` (`src/utils.py`): `None` maps to `None` before
any type-specific logic; otherwise the input is stripped, dispatched on the
column type, and any parse failure is wrapped as a `ValueError` carrying the
(stripped) value, the type, and the underlying failure text. Types not
matched by any branch (`ARRAY`, `INT`, `JSON`, `NULLTYPE`, `STRINGTYPE`)
raise "Unknown column type", which the same wrapper catches. -/
def castSqlValue (P : ExtParsers) (raw : Option String) (t : ColumnTypes) :
    Except CastErr SqlValue :=
  match raw with
  | none => Except.ok SqlValue.null
  | some s =>
    let v := pyStrip s
    match t with
    | .INTEGER | .SMALLINT | .BIGINT =>
      match pyIntParse v with
      | .ok n => Except.ok (SqlValue.int n)
      | .error e => Except.error ⟨v, t, e⟩
    | .REAL | .FLOAT | .DOUBLE | .DOUBLE_PRECISION =>
      match P.floatP v with
      | .ok x => Except.ok x
      | .error e => Except.error ⟨v, t, e⟩
    | .NUMERIC | .DECIMAL =>
      match P.decP v with
      | .ok x => Except.ok x
      | .error e => Except.error ⟨v, t, e⟩
    | .BOOLEAN => Except.ok (SqlValue.bool (boolTrueLiterals.contains (pyLower v)))
    | .TIMESTAMP | .DATETIME =>
      match P.datetimeP v with
      | .ok x => Except.ok x
      | .error e => Except.error ⟨v, t, e⟩
    | .DATE =>
      match P.dateP v with
      | .ok x => Except.ok x
      | .error e => Except.error ⟨v, t, e⟩
    | .TIME =>
      match P.timeP v with
      | .ok x => Except.ok x
      | .error e => Except.error ⟨v, t, e⟩
    | .UUID =>
      match P.uuidP v with
      | .ok x => Except.ok x
      | .error e => Except.error ⟨v, t, e⟩
    | .BLOB | .BINARY | .VARBINARY =>
      match pyB64Decode v with
      | .ok bs => Except.ok (SqlValue.bytes bs)
      | .error e => Except.error ⟨v, t, e⟩
    | .TEXT | .CLOB | .VARCHAR | .NVARCHAR | .CHAR | .NCHAR =>
      Except.ok (SqlValue.str v)
    | _ => Except.error ⟨v, t, "Unknown column type: " ++ typeName t⟩

/-- True iff an `Except` is in its error case. -/
def isErr {ε α : Type} : Except ε α → Bool
  | .error _ => true
  | .ok _ => false

/-- Python `dict` insertion on an ordered association list: an existing key
keeps its position and takes the new value; a new key is appended. -/
def dictInsert {α : Type} (d : List (String × α)) (k : String) (v : α) :
    List (String × α) :=
  if k ∈ d.map Prod.fst then
    d.map (fun p => if p.1 = k then (k, v) else p)
  else d ++ [(k, v)]

/-- Python `dict` built from a sequence of key/value pairs (the semantics of
a dict comprehension): later pairs overwrite the value of earlier equal keys
in place. -/
def dictOfList {α : Type} (l : List (String × α)) : List (String × α) :=
  l.foldl (fun d p => dictInsert d p.1 p.2) []

/-- The keys of an association list, in order. -/
def dictKeys {α : Type} (d : List (String × α)) : List String :=
  d.map Prod.fst

/-- Removal of a key (Python `dict.pop`, result state). -/
def dictPop (d : List (String × String)) (k : String) : List (String × String) :=
  d.filter (fun p => p.1 ≠ k)

/-- The column diff inside `Driver.alter_table` (`src/driver.py`): both
sides become name-keyed dicts; a desired column whose name is not an
existing key is added, an existing key that is not a desired key is
dropped. -/
def alterDiff (existing desired : List Column) : List Column × List String :=
  let existingD := dictOfList (existing.map (fun c => (c.name, c)))
  let newD := dictOfList (desired.map (fun c => (c.name, c)))
  let toAdd := newD.filterMap (fun p => if p.1 ∈ dictKeys existingD then none else some p.2)
  let toDrop := existingD.filterMap (fun p => if p.1 ∈ dictKeys newD then none else some p.1)
  (toAdd, toDrop)

/-- Modelled from the spec: the migration collaborator's effect on a table's
column sequence when `alter_table` applies the diff — each added column is
appended, then each dropped name is removed (spec section 4.3). The
collaborator itself (alembic `op.add_column` / `op.drop_column`) is outside
the repository. -/
def applyDiff (existing toAdd : List Column) (toDrop : List String) : List Column :=
  (existing ++ toAdd).filter (fun c => decide (c.name ∉ toDrop))

/-- The value-assignment loop of `Driver.add_row` (`src/driver.py`): walk
the columns in table order; a same-named connection kwarg wins, otherwise a
non-primary-key column consumes the next unused positional value while any
remain (`j` counts consumed positionals, mirroring `i + 1`). Every assigned
value passes through `cast_sql_value` keyed by the column's type. -/
def addRowLoop (P : ExtParsers) (kwargs : List (String × String))
    (data : List String) : List Column → Nat → Except CastErr (List (String × SqlValue))
  | [], _ => Except.ok []
  | col :: rest, j =>
    match List.lookup col.name kwargs with
    | some v =>
      (castSqlValue P (some v) col.type).bind fun x =>
        (addRowLoop P kwargs data rest j).map fun tail => (col.name, x) :: tail
    | none =>
      if col.primary_key = false ∧ j < data.length then
        (castSqlValue P (some (data.getD j "")) col.type).bind fun x =>
          (addRowLoop P kwargs data rest (j + 1)).map fun tail => (col.name, x) :: tail
      else addRowLoop P kwargs data rest j

/-- The `values` mapping built by `Driver.add_row`, in column order. -/
def addRowValues (P : ExtParsers) (kwargs : List (String × String))
    (cols : List Column) (data : List String) : Except CastErr (List (String × SqlValue)) :=
  addRowLoop P kwargs data cols 0

/-- Claim-side definition of the add-row assignment policy, written from the
spec's words with an explicit queue of unused positional values: override
wins, primary-key columns never consume a positional, a non-primary-key
column consumes the head of the queue, and columns are skipped once the
queue is exhausted. Each entry records the raw value and the column type it
will be cast under. -/
def assignRowSpec (kwargs : List (String × String)) :
    List Column → List String → List (String × String × ColumnTypes)
  | [], _ => []
  | col :: rest, vals =>
    match List.lookup col.name kwargs with
    | some v => (col.name, v, col.type) :: assignRowSpec kwargs rest vals
    | none =>
      if col.primary_key then assignRowSpec kwargs rest vals
      else
        match vals with
        | [] => assignRowSpec kwargs rest []
        | v :: vs => (col.name, v, col.type) :: assignRowSpec kwargs rest vs

/-- Casting one spec-side assignment entry through the value caster. -/
def castAssigned (P : ExtParsers) (e : String × String × ColumnTypes) :
    Except CastErr (String × SqlValue) :=
  (castSqlValue P (some e.2.1) e.2.2).map (fun x => (e.1, x))

/-- Fixed page size of `Interface` (`_PAGE_SIZE`). -/
def PAGE_SIZE : Nat := 100

/-- The result of `Driver.get` (`TableData` in `src/schemas.py`); cell
values are already rendered to text by `list(map(str, row))`. -/
structure TableDataM where
  title : String
  columns : List Column
  page : Int
  count : Nat
  data : List (List String)
deriving DecidableEq, Repr

/-- Model of `Driver.get` (`src/driver.py`) on a table that exists, whose
rows (already rendered as text) are `table`: the page is taken from the
`page` connection kwarg when present (via `int(...)`), else from the
positional argument; the query fetches `PAGE_SIZE` rows from offset
`(page - 1) * PAGE_SIZE`; the answer echoes `page` and counts the fetched
rows. A negative SQL offset cannot occur for the positive pages the spec
allows; `Int.toNat` stands for the offset handed to the toolkit. -/
def getModel (kwargs : List (String × String)) (title : String)
    (cols : List Column) (table : List (List String)) (page : Int) :
    Except String TableDataM :=
  match (match List.lookup "page" kwargs with
         | some s => pyIntParse s
         | none => Except.ok page) with
  | .error e => Except.error e
  | .ok p =>
    let p0 := p - 1
    let fetched := (table.drop (p0 * (PAGE_SIZE : Int)).toNat).take PAGE_SIZE
    Except.ok ⟨title, cols, p0 + 1, fetched.length, fetched⟩

/-- The state built by a successful `Interface.__init__` (`src/driver.py`):
the database URL handed to the engine factory, the `echo`/`debug` flags, the
pool timeout, and the kwargs retained on `self` after the pops. -/
structure EngineCfg where
  url : String
  echo : Bool
  poolTimeout : Int
  debug : Bool
  kwargs : List (String × String)
deriving DecidableEq, Repr

/-- The tail of `Interface.__init__` shared by all branches: the engine is
created with `echo=bool(kwargs.get('echo', False))` and
`pool_timeout=int(kwargs.get('timeout', 15))` — the `int(...)` call raises
on a non-integer timeout string — and the remaining kwargs are kept. -/
def finishEngine (kwargs : List (String × String)) (url : String) :
    Except String EngineCfg :=
  match (match List.lookup "timeout" kwargs with
         | none => Except.ok (15 : Int)
         | some s => pyIntParse s) with
  | .error e => Except.error e
  | .ok t =>
    Except.ok
      { url := url
        echo := (match List.lookup "echo" kwargs with
                 | none => false
                 | some s => s ≠ "")
        poolTimeout := t
        debug := (match List.lookup "debug" kwargs with
                  | none => false
                  | some s => s ≠ "")
        kwargs := kwargs }

/-- Model of `Interface.__init__` (`src/driver.py`): requires a `db` kind
from sqlite/mysql/postgresql; sqlite requires `path`; mysql and postgresql
require `host`, `user`, `password`, `database`, appending an optional `port`
to the host; each missing requirement raises `AttributeError` with the
source's message. -/
def mkInterface (kwargs : List (String × String)) : Except String EngineCfg :=
  match List.lookup "db" kwargs with
  | none => Except.error "db is required"
  | some db =>
    if db = "sqlite" then
      match List.lookup "path" kwargs with
      | none => Except.error "path is required for sqlite"
      | some path => finishEngine (dictPop kwargs "path") ("sqlite:////" ++ path)
    else if db = "mysql" ∨ db = "postgresql" then
      match List.lookup "host" kwargs with
      | none => Except.error ("host is required for " ++ db)
      | some host =>
        match List.lookup "user" kwargs with
        | none => Except.error ("user is required for " ++ db)
        | some user =>
          match List.lookup "password" kwargs with
          | none => Except.error ("password is required for " ++ db)
          | some password =>
            match List.lookup "database" kwargs with
            | none => Except.error ("database is required for " ++ db)
            | some database =>
              let address :=
                match List.lookup "port" kwargs with
                | some p => host ++ ":" ++ p
                | none => host
              let scheme :=
                if db = "postgresql" then "postgresql+psycopg2://" else "mysql+pymysql://"
              let rest :=
                dictPop (dictPop (dictPop (dictPop (dictPop kwargs "host") "port")
                  "user") "password") "database"
              finishEngine rest
                (scheme ++ user ++ ":" ++ password ++ "@" ++ address ++ "/" ++ database)
    else Except.error "db must be one of [sqlite, mysql, postgresql]"

/-- Claim-side definition: the configuration-error condition as the claim
states it — the database kind is missing or unrecognized, or a required
connection field for the recognized kind is absent. -/
def requiredMissing (kwargs : List (String × String)) : Bool :=
  match List.lookup "db" kwargs with
  | none => true
  | some db =>
    if db = "sqlite" then (List.lookup "path" kwargs).isNone
    else if db = "mysql" ∨ db = "postgresql" then
      (List.lookup "host" kwargs).isNone || (List.lookup "user" kwargs).isNone ||
        (List.lookup "password" kwargs).isNone ||
        (List.lookup "database" kwargs).isNone
    else true

/-- A supplied `timeout` connection value that `int(...)` cannot parse. -/
def timeoutBad (kwargs : List (String × String)) : Bool :=
  match List.lookup "timeout" kwargs with
  | none => false
  | some s => isErr (pyIntParse s)

/-- Insert an underscore between a lowercase letter and the following
uppercase letter (the regex substitution inside `to_snake_case`,
`src/utils.py`). -/
def snakeCore : List Char → List Char
  | a :: b :: rest =>
    if a.isLower ∧ b.isUpper then a :: '_' :: snakeCore (b :: rest)
    else a :: snakeCore (b :: rest)
  | l => l

/-- Model of `to_snake_case` (`src/utils.py`) on a present string. -/
def toSnakeCase (s : String) : String :=
  String.mk ((snakeCore s.toList).map Char.toLower)

/-- Python `str.split('=')`: split on every equals sign; the empty string
splits to a single empty part. -/
def splitOnEq : List Char → List (List Char)
  | [] => [[]]
  | c :: rest =>
    if c = '=' then [] :: splitOnEq rest
    else
      match splitOnEq rest with
      | h :: t => (c :: h) :: t
      | [] => [c] :: []

/-- One step of the `parse_args` loop (`src/utils.py`): a `--key=value`
token (one starting with two dashes) joins the kwargs dict after splitting
the remainder on every `'='`; any other shape raises the tuple-unpacking
`ValueError`. Otherwise the first token — or any token while the command is
still missing or empty, since Python tests `not command` — becomes the
command, and the rest become positional arguments. -/
def parseArgsGo : List String → List (String × String) → Option String →
    List String → Except String (List (String × String) × Option String × List String)
  | [], kwargs, cmd, cargs => Except.ok (kwargs, cmd.map toSnakeCase, cargs)
  | arg :: rest, kwargs, cmd, cargs =>
    match arg.toList with
    | '-' :: '-' :: body =>
      match (splitOnEq body).map String.mk with
      | [k, v] => parseArgsGo rest (dictInsert kwargs k v) cmd cargs
      | parts =>
        Except.error
          (if parts.length < 2 then "not enough values to unpack (expected 2, got 1)"
           else "too many values to unpack (expected 2)")
    | _ =>
      match cmd with
      | none => parseArgsGo rest kwargs (some arg) cargs
      | some c =>
        if c = "" then parseArgsGo rest kwargs (some arg) cargs
        else parseArgsGo rest kwargs (some c) (cargs ++ [arg])

/-- Model of `parse_args` (`src/utils.py`) over `sys.argv[1:]`. -/
def parseArgsM (argv : List String) :
    Except String (List (String × String) × Option String × List String) :=
  parseArgsGo argv [] none []

/-- The closed command list of `Interface.__init__`. -/
def availableCommands : List String :=
  ["connect", "get", "create_table", "alter_table", "drop_table", "add_row",
   "add_column"]

/-- Model of `Interface.execute_command` (`src/driver.py`): unknown command
names (including the formatted `None` of a missing command) are rejected
before any database interaction; `create_table`/`alter_table` require one
argument and `add_column` two; everything beyond that — payload parsing and
the operation itself — is delegated to the abstract operation runner
`runOp`. -/
def executeCommandM (runOp : EngineCfg → String → List String → Except String (String × String))
    (cfg : EngineCfg) (cmd : Option String) (args : List String) :
    Except String (String × String) :=
  let c := match cmd with | none => "None" | some s => s
  if c ∈ availableCommands then
    if c = "create_table" ∨ c = "alter_table" then
      if args.length ≠ 1 then
        Except.error ("command='" ++ c ++ "' must have 1 arguments")
      else runOp cfg c args
    else if c = "add_column" then
      if args.length ≠ 2 then
        Except.error ("command='" ++ c ++ "' must have 2 arguments")
      else runOp cfg c args
    else runOp cfg c args
  else Except.error ("Unknown command " ++ c)

/-- The output envelope (`Answer` in `src/schemas.py`); the payload is kept
as its serialized text. -/
structure AnswerM where
  ok : Bool
  data_type : Option String
  data : Option String
  error_message : Option String
deriving DecidableEq, Repr

/-- What one process invocation of `main` (`src/main.py`) does: either an
envelope is printed to stdout (pretty-printed when debug is set) and the
process exits 0, or an exception escapes uncaught and the process exits
nonzero with a traceback. -/
inductive MainOutcome where
  | printed (debug : Bool) (a : AnswerM)
  | uncaught (msg : String)
deriving DecidableEq, Repr

/-- Model of `main` (`src/main.py`): `parse_args()` runs before the
`try` block, so its exceptions escape; inside the block the driver is
constructed and the command executed, any exception becoming the error
envelope; afterwards `driver.debug` is read — when construction raised, the
local `driver` was never bound and this read raises `UnboundLocalError`,
which nothing catches. -/
def mainModel (runOp : EngineCfg → String → List String → Except String (String × String))
    (argv : List String) : MainOutcome :=
  match parseArgsM argv with
  | .error e => MainOutcome.uncaught e
  | .ok (kwargs, cmd, cargs) =>
    match mkInterface kwargs with
    | .error _ =>
      MainOutcome.uncaught
        "cannot access local variable 'driver' where it is not associated with a value"
    | .ok cfg =>
      match executeCommandM runOp cfg cmd cargs with
      | .ok (dt, payload) => MainOutcome.printed cfg.debug ⟨true, some dt, some payload, none⟩
      | .error e => MainOutcome.printed cfg.debug ⟨false, none, none, some e⟩

/-- An operation runner that always fails; used where the database is never
reached. -/
def failRunOp : EngineCfg → String → List String → Except String (String × String) :=
  fun _ _ _ => Except.error "unreachable"

/-- The 250-row table of the pagination instance: row i holds the single
cell `toString i`. -/
def table250 : List (List String) :=
  (List.range 250).map (fun i => [toString i])

/-- The columns of the add-row instance: `id` is a primary key, `name` is
text, `age` is an integer. -/
def addRowCols : List Column :=
  [⟨"id", false, true, ColumnTypes.INTEGER⟩,
   ⟨"name", false, false, ColumnTypes.TEXT⟩,
   ⟨"age", false, false, ColumnTypes.INTEGER⟩]

theorem mem_dictKeys_dictInsert {α : Type} (d : List (String × α)) (k : String)
    (v : α) (n : String) :
    n ∈ dictKeys (dictInsert d k v) ↔ n ∈ dictKeys d ∨ n = k := by
  unfold dictInsert dictKeys
  by_cases h : k ∈ d.map Prod.fst
  · rw [if_pos h, List.map_map]
    have he : d.map (Prod.fst ∘ fun p => if p.1 = k then (k, v) else p) =
        d.map Prod.fst := by
      apply List.map_congr_left
      intro p _
      by_cases hp : p.1 = k
      · simp [hp]
      · simp [hp]
    rw [he]
    constructor
    · exact fun hn => Or.inl hn
    · rintro (hn | rfl)
      · exact hn
      · exact h
  · rw [if_neg h, List.map_append]
    simp

theorem mem_dictKeys_foldl {α : Type} (l : List (String × α)) :
    ∀ (acc : List (String × α)) (n : String),
      n ∈ dictKeys (l.foldl (fun d p => dictInsert d p.1 p.2) acc) ↔
        n ∈ dictKeys acc ∨ n ∈ dictKeys l := by
  induction l with
  | nil => intro acc n; simp [dictKeys]
  | cons p tl ih =>
    intro acc n
    simp only [List.foldl_cons]
    rw [ih, mem_dictKeys_dictInsert]
    simp only [dictKeys, List.map_cons, List.mem_cons]
    tauto

theorem mem_dictKeys_dictOfList {α : Type} (l : List (String × α)) (n : String) :
    n ∈ dictKeys (dictOfList l) ↔ n ∈ dictKeys l := by
  unfold dictOfList
  rw [mem_dictKeys_foldl]
  simp [dictKeys]

theorem mem_dictInsert {α : Type} (d : List (String × α)) (k : String) (v : α)
    (p : String × α) : p ∈ dictInsert d k v → p ∈ d ∨ p = (k, v) := by
  unfold dictInsert
  by_cases h : k ∈ d.map Prod.fst
  · rw [if_pos h]
    intro hp
    obtain ⟨q, hq, he⟩ := List.mem_map.mp hp
    by_cases hqk : q.1 = k
    · right; rw [if_pos hqk] at he; exact he.symm
    · left; rw [if_neg hqk] at he; exact he ▸ hq
  · rw [if_neg h]
    intro hp
    rcases List.mem_append.mp hp with h1 | h2
    · exact Or.inl h1
    · right; simpa using h2

theorem mem_foldl_dictInsert {α : Type} (l : List (String × α)) :
    ∀ (acc : List (String × α)) (p : String × α),
      p ∈ l.foldl (fun d q => dictInsert d q.1 q.2) acc → p ∈ acc ∨ p ∈ l := by
  induction l with
  | nil => intro acc p h; exact Or.inl (by simpa using h)
  | cons q tl ih =>
    intro acc p h
    simp only [List.foldl_cons] at h
    rcases ih _ p h with h1 | h2
    · rcases mem_dictInsert _ _ _ _ h1 with ha | hb
      · exact Or.inl ha
      · right
        rw [hb]
        exact List.mem_cons_self _ _
    · exact Or.inr (List.mem_cons_of_mem _ h2)

theorem mem_dictOfList {α : Type} (l : List (String × α)) (p : String × α)
    (h : p ∈ dictOfList l) : p ∈ l := by
  rcases mem_foldl_dictInsert l [] p h with h1 | h2
  · simp at h1
  · exact h2

theorem foldl_dictInsert_eq_append {α : Type} (l : List (String × α)) :
    ∀ acc : List (String × α), (dictKeys acc ++ dictKeys l).Nodup →
      l.foldl (fun d q => dictInsert d q.1 q.2) acc = acc ++ l := by
  induction l with
  | nil => intro acc _; simp
  | cons p tl ih =>
    intro acc h
    have h' : (dictKeys acc ++ p.1 :: dictKeys tl).Nodup := by
      simpa [dictKeys] using h
    have hnotin : p.1 ∉ dictKeys acc := by
      intro hc
      have hd := (List.nodup_append.mp h').2.2
      exact hd hc (List.mem_cons_self _ _)
    have hins : dictInsert acc p.1 p.2 = acc ++ [p] := by
      unfold dictInsert
      rw [if_neg (by simpa [dictKeys] using hnotin)]
    simp only [List.foldl_cons]
    rw [hins, ih]
    · simp
    · simp only [dictKeys, List.map_append, List.map_cons, List.map_nil] at h' ⊢
      simpa [List.append_assoc] using h'

theorem dictOfList_eq_self {α : Type} (l : List (String × α))
    (h : (dictKeys l).Nodup) : dictOfList l = l := by
  unfold dictOfList
  have := foldl_dictInsert_eq_append l [] (by simpa [dictKeys] using h)
  simpa using this

theorem dictKeys_map_name (l : List Column) :
    dictKeys (l.map (fun c => (c.name, c))) = l.map Column.name := by
  unfold dictKeys
  rw [List.map_map]
  rfl

theorem filterMap_if_eq_filter_map {α β : Type} (P : α → Prop) [DecidablePred P]
    (g : α → β) (l : List α) :
    l.filterMap (fun a => if P a then none else some (g a)) =
      (l.filter (fun a => decide ¬P a)).map g := by
  induction l with
  | nil => rfl
  | cons a tl ih =>
    by_cases h : P a
    · simp [List.filterMap_cons, List.filter_cons, h, ih]
    · simp [List.filterMap_cons, List.filter_cons, h, ih]

theorem filterMap_if_eq_filter {α : Type} (P : α → Prop) [DecidablePred P]
    (l : List α) :
    l.filterMap (fun a => if P a then none else some a) =
      l.filter (fun a => decide ¬P a) := by
  induction l with
  | nil => rfl
  | cons a tl ih =>
    by_cases h : P a
    · simp [List.filterMap_cons, List.filter_cons, h, ih]
    · simp [List.filterMap_cons, List.filter_cons, h, ih]

/-- C2: for every pair of column sequences with well-formed (duplicate-free)
column names, the alter-table diff adds exactly the desired columns whose
names are absent from the existing side, in desired order, and drops exactly
the existing names absent from the desired side, in existing order — and the
diff touches nothing else, so columns present on both sides are never
modified. Instance: existing=[a,b,c], desired=[b,c,d] gives toAdd=[d],
toDrop=[a]. -/
theorem claim_C2_alter_table_diff :
    (∀ existing desired : List Column,
        (existing.map Column.name).Nodup → (desired.map Column.name).Nodup →
        (alterDiff existing desired).1 =
            desired.filter (fun c => decide (c.name ∉ existing.map Column.name)) ∧
          (alterDiff existing desired).2 =
            (existing.filter
              (fun c => decide (c.name ∉ desired.map Column.name))).map Column.name) ∧
      alterDiff
          [⟨"a", false, false, ColumnTypes.INTEGER⟩,
            ⟨"b", false, false, ColumnTypes.INTEGER⟩,
            ⟨"c", false, false, ColumnTypes.INTEGER⟩]
          [⟨"b", false, false, ColumnTypes.INTEGER⟩,
            ⟨"c", false, false, ColumnTypes.INTEGER⟩,
            ⟨"d", false, false, ColumnTypes.INTEGER⟩] =
        ([⟨"d", false, false, ColumnTypes.INTEGER⟩], ["a"]) := by
  constructor
  · intro E D hE hD
    have hkE : (dictKeys (E.map fun c => (c.name, c))).Nodup := by
      rw [dictKeys_map_name]; exact hE
    have hkD : (dictKeys (D.map fun c => (c.name, c))).Nodup := by
      rw [dictKeys_map_name]; exact hD
    simp only [alterDiff]
    rw [dictOfList_eq_self _ hkE, dictOfList_eq_self _ hkD, dictKeys_map_name,
      dictKeys_map_name]
    constructor
    · rw [List.filterMap_map]
      have hcomp :
          ((fun p : String × Column =>
              if p.1 ∈ E.map Column.name then (none : Option Column) else some p.2) ∘
            fun c : Column => (c.name, c)) =
            fun c : Column =>
              if c.name ∈ E.map Column.name then none else some c := rfl
      rw [hcomp, filterMap_if_eq_filter (fun c : Column => c.name ∈ E.map Column.name)]
    · rw [List.filterMap_map]
      have hcomp :
          ((fun p : String × Column =>
              if p.1 ∈ D.map Column.name then (none : Option String) else some p.1) ∘
            fun c : Column => (c.name, c)) =
            fun c : Column =>
              if c.name ∈ D.map Column.name then none else some c.name := rfl
      rw [hcomp,
        filterMap_if_eq_filter_map (fun c : Column => c.name ∈ D.map Column.name)
          Column.name]
  · decide

theorem toAdd_mem (E D : List Column) (c : Column) (h : c ∈ (alterDiff E D).1) :
    c ∈ D ∧ c.name ∉ E.map Column.name := by
  simp only [alterDiff] at h
  obtain ⟨p, hp, hg⟩ := List.mem_filterMap.mp h
  by_cases hmem : p.1 ∈ dictKeys (dictOfList (E.map fun x => (x.name, x)))
  · rw [if_pos hmem] at hg; cases hg
  · rw [if_neg hmem] at hg
    have hpc : p.2 = c := Option.some.inj hg
    obtain ⟨c', hc', he⟩ := List.mem_map.mp (mem_dictOfList _ _ hp)
    have h1 : c'.name = p.1 := congrArg Prod.fst he
    have h2 : c' = c := by
      have := congrArg Prod.snd he
      simpa [hpc] using this
    subst h2
    refine ⟨hc', ?_⟩
    intro hcE
    apply hmem
    rw [mem_dictKeys_dictOfList, dictKeys_map_name, ← h1]
    exact hcE

theorem toAdd_name_mem (E D : List Column) (n : String)
    (h1 : n ∈ D.map Column.name) (h2 : n ∉ E.map Column.name) :
    n ∈ (alterDiff E D).1.map Column.name := by
  have hkeys : n ∈ dictKeys (dictOfList (D.map fun x => (x.name, x))) := by
    rw [mem_dictKeys_dictOfList, dictKeys_map_name]; exact h1
  obtain ⟨p, hp, hpn⟩ := List.mem_map.mp hkeys
  obtain ⟨c', hc', he⟩ := List.mem_map.mp (mem_dictOfList _ _ hp)
  apply List.mem_map.mpr
  refine ⟨p.2, ?_, ?_⟩
  · simp only [alterDiff]
    apply List.mem_filterMap.mpr
    refine ⟨p, hp, ?_⟩
    have hnot : p.1 ∉ dictKeys (dictOfList (E.map fun x => (x.name, x))) := by
      intro hmem
      rw [mem_dictKeys_dictOfList, dictKeys_map_name, hpn] at hmem
      exact h2 hmem
    rw [if_neg hnot]
  · have hname : p.2.name = p.1 := by
      have := congrArg Prod.snd he
      rw [← this, ← congrArg Prod.fst he]
    rw [hname, hpn]

theorem toDrop_mem_iff (E D : List Column) (n : String) :
    n ∈ (alterDiff E D).2 ↔ n ∈ E.map Column.name ∧ n ∉ D.map Column.name := by
  constructor
  · intro h
    simp only [alterDiff] at h
    obtain ⟨p, hp, hg⟩ := List.mem_filterMap.mp h
    by_cases hmem : p.1 ∈ dictKeys (dictOfList (D.map fun x => (x.name, x)))
    · rw [if_pos hmem] at hg; cases hg
    · rw [if_neg hmem] at hg
      have hpn : p.1 = n := Option.some.inj hg
      obtain ⟨c', hc', he⟩ := List.mem_map.mp (mem_dictOfList _ _ hp)
      constructor
      · apply List.mem_map.mpr
        refine ⟨c', hc', ?_⟩
        have h1 : c'.name = p.1 := congrArg Prod.fst he
        rw [h1, hpn]
      · intro hD
        apply hmem
        rw [mem_dictKeys_dictOfList, dictKeys_map_name, hpn]
        exact hD
  · rintro ⟨hE, hD⟩
    have hkeys : n ∈ dictKeys (dictOfList (E.map fun x => (x.name, x))) := by
      rw [mem_dictKeys_dictOfList, dictKeys_map_name]; exact hE
    obtain ⟨p, hp, hpn⟩ := List.mem_map.mp hkeys
    simp only [alterDiff]
    apply List.mem_filterMap.mpr
    refine ⟨p, hp, ?_⟩
    have hnot : p.1 ∉ dictKeys (dictOfList (D.map fun x => (x.name, x))) := by
      intro hmem
      rw [mem_dictKeys_dictOfList, dictKeys_map_name, hpn] at hmem
      exact hD hmem
    rw [if_neg hnot, hpn]

theorem applyDiff_names (E D : List Column) (n : String) :
    n ∈ (applyDiff E (alterDiff E D).1 (alterDiff E D).2).map Column.name ↔
      n ∈ D.map Column.name := by
  unfold applyDiff
  constructor
  · intro h
    obtain ⟨c, hc, hcn⟩ := List.mem_map.mp h
    have hfil := List.mem_filter.mp hc
    have hkeep : c.name ∉ (alterDiff E D).2 := by
      have := hfil.2
      simpa using this
    rcases List.mem_append.mp hfil.1 with hE | hA
    · by_contra hnD
      apply hkeep
      rw [toDrop_mem_iff]
      refine ⟨List.mem_map.mpr ⟨c, hE, rfl⟩, ?_⟩
      rwa [hcn]
    · have hAd := toAdd_mem E D c hA
      exact hcn ▸ List.mem_map.mpr ⟨c, hAd.1, rfl⟩
  · intro hD
    by_cases hE : n ∈ E.map Column.name
    · obtain ⟨c, hc, hcn⟩ := List.mem_map.mp hE
      apply List.mem_map.mpr
      refine ⟨c, ?_, hcn⟩
      apply List.mem_filter.mpr
      refine ⟨List.mem_append.mpr (Or.inl hc), ?_⟩
      simp only [decide_eq_true_eq]
      rw [toDrop_mem_iff]
      push_neg
      intro _
      rwa [hcn]
    · have hA := toAdd_name_mem E D n hD hE
      obtain ⟨c, hc, hcn⟩ := List.mem_map.mp hA
      apply List.mem_map.mpr
      refine ⟨c, ?_, hcn⟩
      apply List.mem_filter.mpr
      refine ⟨List.mem_append.mpr (Or.inr hc), ?_⟩
      simp only [decide_eq_true_eq]
      rw [toDrop_mem_iff]
      push_neg
      intro _
      rwa [hcn]

theorem alterDiff_eq_nil_of_same_names (P D : List Column)
    (h : ∀ m : String, m ∈ P.map Column.name ↔ m ∈ D.map Column.name) :
    alterDiff P D = ([], []) := by
  have hta : (alterDiff P D).1 = [] := by
    simp only [alterDiff]
    apply List.filterMap_eq_nil_iff.mpr
    intro p hp
    obtain ⟨c', hc', he⟩ := List.mem_map.mp (mem_dictOfList _ _ hp)
    have hn : p.1 ∈ D.map Column.name := by
      apply List.mem_map.mpr
      refine ⟨c', hc', ?_⟩
      exact congrArg Prod.fst he
    have hmem : p.1 ∈ dictKeys (dictOfList (P.map fun c => (c.name, c))) := by
      rw [mem_dictKeys_dictOfList, dictKeys_map_name]
      exact (h p.1).mpr hn
    rw [if_pos hmem]
  have htd : (alterDiff P D).2 = [] := by
    simp only [alterDiff]
    apply List.filterMap_eq_nil_iff.mpr
    intro p hp
    obtain ⟨c', hc', he⟩ := List.mem_map.mp (mem_dictOfList _ _ hp)
    have hn : p.1 ∈ P.map Column.name := by
      apply List.mem_map.mpr
      refine ⟨c', hc', ?_⟩
      exact congrArg Prod.fst he
    have hmem : p.1 ∈ dictKeys (dictOfList (D.map fun c => (c.name, c))) := by
      rw [mem_dictKeys_dictOfList, dictKeys_map_name]
      exact (h p.1).mp hn
    rw [if_pos hmem]
  have hsplit : alterDiff P D = ((alterDiff P D).1, (alterDiff P D).2) := rfl
  rw [hsplit, hta, htd]

/-- C3: applying the diff's additions and drops to the existing columns and
diffing the result against the desired columns yields an empty diff — for
every pair of column sequences, duplicates included. -/
theorem claim_C3_diff_idempotent :
    ∀ existing desired : List Column,
      alterDiff
          (applyDiff existing (alterDiff existing desired).1
            (alterDiff existing desired).2)
          desired = ([], []) := by
  intro E D
  exact alterDiff_eq_nil_of_same_names _ D (fun m => applyDiff_names E D m)

theorem addRowLoop_eq_spec (P : ExtParsers) (kwargs : List (String × String))
    (data : List String) :
    ∀ (cols : List Column) (j : Nat),
      addRowLoop P kwargs data cols j =
        (assignRowSpec kwargs cols (data.drop j)).mapM (castAssigned P) := by
  intro cols
  induction cols with
  | nil => intro j; rfl
  | cons col rest ih =>
    intro j
    simp only [addRowLoop, assignRowSpec]
    cases hl : List.lookup col.name kwargs with
    | some v =>
      rw [List.mapM_cons]
      cases hc : castSqlValue P (some v) col.type with
      | error e =>
        simp [castAssigned, hc, Except.bind, Except.map, Bind.bind]
      | ok x =>
        rw [ih j]
        cases hm : (assignRowSpec kwargs rest (data.drop j)).mapM (castAssigned P) with
        | error e =>
          simp [castAssigned, hc, hm, Except.bind, Except.map, Bind.bind, pure,
            Except.pure]
        | ok bs =>
          simp [castAssigned, hc, hm, Except.bind, Except.map, Bind.bind, pure,
            Except.pure]
    | none =>
      by_cases hcond : col.primary_key = false ∧ j < data.length
      · rw [if_pos hcond]
        have hdrop : data.drop j = data.getD j "" :: data.drop (j + 1) := by
          rw [List.drop_eq_getElem_cons hcond.2]
          rw [List.getD_eq_getElem data "" hcond.2]
        rw [hdrop]
        simp only [hcond.1, Bool.false_eq_true, if_false]
        rw [List.mapM_cons]
        cases hc : castSqlValue P (some (data.getD j "")) col.type with
        | error e =>
          rw [List.getD_eq_getElem?_getD] at hc
          simp [castAssigned, hc, Except.bind, Except.map, Bind.bind]
        | ok x =>
          rw [List.getD_eq_getElem?_getD] at hc
          rw [ih (j + 1)]
          cases hm : (assignRowSpec kwargs rest (data.drop (j + 1))).mapM
              (castAssigned P) with
          | error e =>
            simp [castAssigned, hc, hm, Except.bind, Except.map, Bind.bind, pure,
              Except.pure]
          | ok bs =>
            simp [castAssigned, hc, hm, Except.bind, Except.map, Bind.bind, pure,
              Except.pure]
      · rw [if_neg hcond]
        rw [ih j]
        by_cases hb : col.primary_key = true
        · simp [hb]
        · have hbf : col.primary_key = false := by
            cases h2 : col.primary_key
            · rfl
            · exact absurd h2 hb
          have hlen : data.length ≤ j := by
            by_contra hlt
            push_neg at hlt
            exact hcond ⟨hbf, hlt⟩
          have hdrop : data.drop j = [] := List.drop_eq_nil_of_le hlen
          simp [hbf, hdrop]

/-- C4: the values mapping built by `add_row` is exactly the spec's
assignment policy — in table order, a same-named connection-kwargs override
wins; otherwise a non-primary-key column consumes the next unused positional
value and is skipped once positionals are exhausted; primary-key columns
never take a positional value — with every assigned raw value passed through
the value caster keyed by that column's type. Instance: schema
[id(pk), name, age] with positionals ["Alice","30"] assigns name="Alice",
age=30, and leaves id unassigned. -/
theorem claim_C4_add_row_assignment :
    (∀ (P : ExtParsers) (kwargs : List (String × String)) (cols : List Column)
        (data : List String),
        addRowValues P kwargs cols data =
          (assignRowSpec kwargs cols data).mapM (castAssigned P)) ∧
      addRowValues trivParsers [] addRowCols ["Alice", "30"] =
        Except.ok [("name", SqlValue.str "Alice"), ("age", SqlValue.int 30)] := by
  constructor
  · intro P kwargs cols data
    have h := addRowLoop_eq_spec P kwargs data cols 0
    simpa [addRowValues] using h
  · rfl

/-- C5: with no `page` connection flag and a positive page number, `get`
serves 1-based pages of fixed size 100 — it requests the rows starting at
offset (page-1)*100, returns `count` equal to the number of rows actually
fetched, and echoes the requested page number. -/
theorem claim_C5_get_pagination :
    ∀ (kwargs : List (String × String)) (title : String) (cols : List Column)
      (table : List (List String)) (page : Int),
      List.lookup "page" kwargs = none → 1 ≤ page →
      getModel kwargs title cols table page =
        Except.ok
          ⟨title, cols, page, ((table.drop ((page - 1) * 100).toNat).take 100).length,
            (table.drop ((page - 1) * 100).toNat).take 100⟩ := by
  intro kwargs title cols table page hnone hpos
  have hp : page - 1 + 1 = page := by omega
  simp only [getModel, hnone, PAGE_SIZE, hp]
  norm_num

/-- C5 instance: a 250-row table gives rows 101-200 with count 100 on
page 2, and count 50 on page 3. -/
theorem claim_C5_witness :
    getModel [] "orders" [] table250 2 =
        Except.ok ⟨"orders", [], 2, 100, (table250.drop 100).take 100⟩ ∧
      getModel [] "orders" [] table250 3 =
        Except.ok ⟨"orders", [], 3, 50, (table250.drop 200).take 100⟩ := by
  constructor
  · exact (claim_C5_get_pagination [] "orders" [] table250 2 rfl (by norm_num)).trans
      (by rfl)
  · exact (claim_C5_get_pagination [] "orders" [] table250 3 rfl (by norm_num)).trans
      (by rfl)

/-- C10: when the connection options carry a `page` key, its integer value
silently overrides the positional page argument of `get` on every call —
the result does not depend on the positional page at all, and when the flag
parses as n the served page is n. -/
theorem claim_C10_page_kwarg_override :
    ∀ (kwargs : List (String × String)) (title : String) (cols : List Column)
      (table : List (List String)) (p1 p2 : Int) (v : String),
      List.lookup "page" kwargs = some v →
      getModel kwargs title cols table p1 = getModel kwargs title cols table p2 ∧
        (∀ n : Int, pyIntParse v = Except.ok n →
          getModel kwargs title cols table p1 =
            Except.ok
              ⟨title, cols, n, ((table.drop ((n - 1) * 100).toNat).take 100).length,
                (table.drop ((n - 1) * 100).toNat).take 100⟩) := by
  intro kwargs title cols table p1 p2 v hv
  constructor
  · simp only [getModel, hv]
  · intro n hn
    have hx : n - 1 + 1 = n := by omega
    simp only [getModel, hv, hn, PAGE_SIZE, hx]
    norm_num

/-- C10 instance: `--page=3` overrides any positional page. -/
theorem claim_C10_witness :
    getModel [("page", "3")] "orders" [] table250 1 =
        getModel [("page", "3")] "orders" [] table250 7 ∧
      getModel [("page", "3")] "orders" [] table250 1 =
        Except.ok ⟨"orders", [], 3, 50, (table250.drop 200).take 100⟩ := by
  have h := claim_C10_page_kwarg_override [("page", "3")] "orders" [] table250 1 7 "3" rfl
  exact ⟨h.1, (h.2 3 rfl).trans (by rfl)⟩

/-- C6: the BOOLEAN cast is total and never raises — after trimming, a
case-insensitive member of one/true/yes/on yields true and every other
string yields false. Instances: "true" is true, "0" and "banana" are
false. -/
theorem claim_C6_boolean_cast_total :
    (∀ (P : ExtParsers) (s : String),
        castSqlValue P (some s) ColumnTypes.BOOLEAN =
          Except.ok (SqlValue.bool (boolTrueLiterals.contains (pyLower (pyStrip s))))) ∧
      castSqlValue trivParsers (some "true") ColumnTypes.BOOLEAN =
          Except.ok (SqlValue.bool true) ∧
        castSqlValue trivParsers (some "0") ColumnTypes.BOOLEAN =
            Except.ok (SqlValue.bool false) ∧
          castSqlValue trivParsers (some "banana") ColumnTypes.BOOLEAN =
            Except.ok (SqlValue.bool false) :=
  ⟨fun _ _ => rfl, rfl, rfl, rfl⟩

/-- C7 counterexample: the cast error does not carry the original raw
value — on input " 12.5 " the wrapped error carries the trimmed "12.5",
which differs from the original raw string. -/
theorem claim_C7_counterexample :
    castSqlValue trivParsers (some " 12.5 ") ColumnTypes.INTEGER =
        Except.error
          ⟨"12.5", ColumnTypes.INTEGER, "invalid literal for int() with base 10: '12.5'"⟩ ∧
      "12.5" ≠ " 12.5 " :=
  ⟨rfl, by decide⟩

/-- C7 (amended): casting a string that is not a base-10 integer literal to
INTEGER, SMALLINT, or BIGINT fails with a cast error carrying the trimmed
input value, the target type, and the underlying parse failure
description — never the bare library error. -/
theorem claim_C7_integer_cast_error :
    ∀ (P : ExtParsers) (s : String) (t : ColumnTypes) (e : String),
      (t = ColumnTypes.INTEGER ∨ t = ColumnTypes.SMALLINT ∨ t = ColumnTypes.BIGINT) →
      pyIntParse (pyStrip s) = Except.error e →
      castSqlValue P (some s) t = Except.error ⟨pyStrip s, t, e⟩ := by
  intro P s t e ht he
  rcases ht with rfl | rfl | rfl <;> simp [castSqlValue, he]

/-- C7 witness: "12.5" cast to INTEGER fails with the wrapped error. -/
theorem claim_C7_witness :
    castSqlValue trivParsers (some "12.5") ColumnTypes.INTEGER =
      Except.error
        ⟨"12.5", ColumnTypes.INTEGER, "invalid literal for int() with base 10: '12.5'"⟩ :=
  claim_C7_integer_cast_error trivParsers "12.5" ColumnTypes.INTEGER
    "invalid literal for int() with base 10: '12.5'" (Or.inl rfl) rfl

/-- C8 counterexample: neither "aGVsbG8!=" nor "aGVsbG8=QQ" is valid
standard base64, yet the BLOB cast succeeds on both and yields the bytes of
"hello" — the decoder discards characters outside the base64 alphabet and
ignores everything after a completed padding quad. -/
theorem claim_C8_counterexample :
    isStdBase64 "aGVsbG8!=" = false ∧
      castSqlValue trivParsers (some "aGVsbG8!=") ColumnTypes.BLOB =
          Except.ok (SqlValue.bytes [104, 101, 108, 108, 111]) ∧
        isStdBase64 "aGVsbG8=QQ" = false ∧
          castSqlValue trivParsers (some "aGVsbG8=QQ") ColumnTypes.BLOB =
            Except.ok (SqlValue.bytes [104, 101, 108, 108, 111]) :=
  ⟨rfl, rfl, rfl, rfl⟩

/-- C8 (amended): the BLOB/BINARY/VARBINARY cast decodes with Python's
lenient base64 decoding — non-alphabet characters are discarded and
everything after a completed padding quad is ignored, so base64("hello")
yields the bytes of "hello" and "aGVsbG8=QQ"/"aGVsbG8=QUJD" also yield
exactly the bytes of "hello" — and it fails with a wrapped cast error
exactly when that lenient decoding of the trimmed input fails (a trailing
incomplete quad). -/
theorem claim_C8_base64_cast :
    castSqlValue trivParsers (some "aGVsbG8=") ColumnTypes.BLOB =
        Except.ok (SqlValue.bytes [104, 101, 108, 108, 111]) ∧
      castSqlValue trivParsers (some "aGVsbG8=QUJD") ColumnTypes.BLOB =
          Except.ok (SqlValue.bytes [104, 101, 108, 108, 111]) ∧
        (∀ (P : ExtParsers) (s : String) (t : ColumnTypes) (bs : List Nat),
          (t = ColumnTypes.BLOB ∨ t = ColumnTypes.BINARY ∨ t = ColumnTypes.VARBINARY) →
          pyB64Decode (pyStrip s) = Except.ok bs →
          castSqlValue P (some s) t = Except.ok (SqlValue.bytes bs)) ∧
        (∀ (P : ExtParsers) (s : String) (t : ColumnTypes) (e : String),
          (t = ColumnTypes.BLOB ∨ t = ColumnTypes.BINARY ∨ t = ColumnTypes.VARBINARY) →
          pyB64Decode (pyStrip s) = Except.error e →
          castSqlValue P (some s) t = Except.error ⟨pyStrip s, t, e⟩) := by
  refine ⟨rfl, rfl, ?_, ?_⟩
  · intro P s t bs ht hd
    rcases ht with rfl | rfl | rfl <;> simp [castSqlValue, hd]
  · intro P s t e ht hd
    rcases ht with rfl | rfl | rfl <;> simp [castSqlValue, hd]

/-- C8 witness: base64("hello") decodes through the BINARY cast, data after
a completed padding quad is ignored, and a string with a dangling quad fails
with the wrapped padding error. -/
theorem claim_C8_witness :
    castSqlValue trivParsers (some "aGVsbG8=") ColumnTypes.BINARY =
        Except.ok (SqlValue.bytes [104, 101, 108, 108, 111]) ∧
      castSqlValue trivParsers (some "aGVsbG8=QQ") ColumnTypes.VARBINARY =
          Except.ok (SqlValue.bytes [104, 101, 108, 108, 111]) ∧
        castSqlValue trivParsers (some "abc") ColumnTypes.BLOB =
          Except.error ⟨"abc", ColumnTypes.BLOB, "Incorrect padding"⟩ := by
  refine ⟨?_, ?_, ?_⟩
  · exact claim_C8_base64_cast.2.2.1 trivParsers "aGVsbG8=" ColumnTypes.BINARY
      [104, 101, 108, 108, 111] (Or.inr (Or.inl rfl)) rfl
  · exact claim_C8_base64_cast.2.2.1 trivParsers "aGVsbG8=QQ" ColumnTypes.VARBINARY
      [104, 101, 108, 108, 111] (Or.inr (Or.inr rfl)) rfl
  · exact claim_C8_base64_cast.2.2.2 trivParsers "abc" ColumnTypes.BLOB
      "Incorrect padding" (Or.inl rfl) rfl

/-- C1 (code-bug evidence): two whole invocations on which an exception
escapes `main` uncaught. With `connect` and no `--db` flag, driver
construction raises, the except-branch builds the error envelope, but the
following `driver.debug` read raises `UnboundLocalError`, so the process
exits nonzero instead of printing the ok:false envelope. With a bare `--db`
token, `parse_args` raises the tuple-unpacking `ValueError` before the `try`
block even starts. -/
theorem claim_C1_uncaught_exception :
    mainModel failRunOp ["connect"] =
        MainOutcome.uncaught
          "cannot access local variable 'driver' where it is not associated with a value" ∧
      mainModel failRunOp ["--db"] =
        MainOutcome.uncaught "not enough values to unpack (expected 2, got 1)" :=
  ⟨rfl, rfl⟩

theorem lookup_dictPop (d : List (String × String)) (k k' : String)
    (h : k ≠ k') : List.lookup k (dictPop d k') = List.lookup k d := by
  induction d with
  | nil => rfl
  | cons p tl ih =>
    obtain ⟨pk, pv⟩ := p
    unfold dictPop at ih ⊢
    rw [List.filter_cons]
    by_cases hp : pk = k'
    · have hc : decide ((pk, pv).1 ≠ k') = false := by simp [hp]
      rw [hc, if_neg (by simp)]
      rw [ih]
      have hne : (k == pk) = false := beq_eq_false_iff_ne.mpr (fun he => h (hp ▸ he))
      simp [List.lookup, hne]
    · have hc : decide ((pk, pv).1 ≠ k') = true := by simp [hp]
      rw [hc, if_pos rfl]
      by_cases hkk : (k == pk) = true
      · simp [List.lookup, hkk]
      · have hkkf : (k == pk) = false := by
          cases hx : (k == pk)
          · rfl
          · exact absurd hx hkk
        simp only [ne_eq, decide_not] at ih
        simp [List.lookup, hkkf, ih]

theorem isErr_finishEngine (kwargs : List (String × String)) (url : String) :
    isErr (finishEngine kwargs url) = timeoutBad kwargs := by
  unfold finishEngine timeoutBad
  cases List.lookup "timeout" kwargs with
  | none => rfl
  | some s =>
    cases h : pyIntParse s with
    | error e => simp [h, isErr]
    | ok t => simp [h, isErr]

theorem timeoutBad_dictPop (d : List (String × String)) (x : String)
    (h : ("timeout" : String) ≠ x) : timeoutBad (dictPop d x) = timeoutBad d := by
  unfold timeoutBad
  rw [lookup_dictPop d "timeout" x h]

theorem timeoutBad_pops (d : List (String × String)) :
    timeoutBad
        (dictPop (dictPop (dictPop (dictPop (dictPop d "host") "port") "user")
          "password") "database") = timeoutBad d := by
  rw [timeoutBad_dictPop _ _ (by decide), timeoutBad_dictPop _ _ (by decide),
    timeoutBad_dictPop _ _ (by decide), timeoutBad_dictPop _ _ (by decide),
    timeoutBad_dictPop _ _ (by decide)]

theorem finishEngine_ok_url (kw : List (String × String)) (url : String)
    (cfg : EngineCfg) (h : finishEngine kw url = Except.ok cfg) : cfg.url = url := by
  unfold finishEngine at h
  cases hT : (match List.lookup "timeout" kw with
              | none => Except.ok (15 : Int)
              | some s => pyIntParse s) with
  | error e => simp [hT] at h
  | ok t =>
    simp only [hT] at h
    have h2 := Except.ok.inj h
    rw [← h2]

/-- C9 (amended): dispatcher construction fails exactly when the database
kind is missing or unrecognized, a required connection field for the kind is
absent (sqlite: path; mysql/postgresql: host, user, password, database), or
a supplied `timeout` connection value is not an integer literal; on a
successful mysql/postgresql construction, the optional port is appended to
the host inside the database URL. -/
theorem claim_C9_config_validation :
    (∀ kwargs : List (String × String),
        isErr (mkInterface kwargs) = (requiredMissing kwargs || timeoutBad kwargs)) ∧
      (∀ (kwargs : List (String × String)) (db : String) (cfg : EngineCfg),
        List.lookup "db" kwargs = some db → (db = "mysql" ∨ db = "postgresql") →
        mkInterface kwargs = Except.ok cfg →
        ∃ host user password database,
          List.lookup "host" kwargs = some host ∧
            List.lookup "user" kwargs = some user ∧
              List.lookup "password" kwargs = some password ∧
                List.lookup "database" kwargs = some database ∧
                  cfg.url =
                    (if db = "postgresql" then "postgresql+psycopg2://"
                      else "mysql+pymysql://") ++
                      user ++ ":" ++ password ++ "@" ++
                      (match List.lookup "port" kwargs with
                       | some p => host ++ ":" ++ p
                       | none => host) ++ "/" ++ database) := by
  constructor
  · intro kwargs
    cases hdb : List.lookup "db" kwargs with
    | none => simp [mkInterface, requiredMissing, hdb, isErr]
    | some db =>
      simp only [mkInterface, requiredMissing, hdb]
      by_cases hsq : db = "sqlite"
      · rw [if_pos hsq, if_pos hsq]
        cases hpath : List.lookup "path" kwargs with
        | none => simp [hpath, isErr]
        | some path =>
          simp only [hpath]
          rw [isErr_finishEngine, timeoutBad_dictPop _ _ (by decide)]
          simp [Option.isNone]
      · rw [if_neg hsq, if_neg hsq]
        by_cases hmy : db = "mysql" ∨ db = "postgresql"
        · rw [if_pos hmy, if_pos hmy]
          cases hhost : List.lookup "host" kwargs with
          | none => simp [hhost, Option.isNone, isErr]
          | some host =>
            cases huser : List.lookup "user" kwargs with
            | none => simp [hhost, huser, Option.isNone, isErr]
            | some user =>
              cases hpw : List.lookup "password" kwargs with
              | none => simp [hhost, huser, hpw, Option.isNone, isErr]
              | some pw =>
                cases hdbn : List.lookup "database" kwargs with
                | none => simp [hhost, huser, hpw, hdbn, Option.isNone, isErr]
                | some dbn =>
                  simp only [hhost, huser, hpw, hdbn, isErr_finishEngine,
                    timeoutBad_pops]
                  simp [Option.isNone]
        · rw [if_neg hmy, if_neg hmy]
          rfl
  · intro kwargs db cfg hdb hdbk hok
    simp only [mkInterface, hdb] at hok
    have hsq : ¬db = "sqlite" := by rcases hdbk with rfl | rfl <;> decide
    rw [if_neg hsq, if_pos hdbk] at hok
    cases hhost : List.lookup "host" kwargs with
    | none => simp [hhost] at hok
    | some host =>
      cases huser : List.lookup "user" kwargs with
      | none => simp [hhost, huser] at hok
      | some user =>
        cases hpw : List.lookup "password" kwargs with
        | none => simp [hhost, huser, hpw] at hok
        | some pw =>
          cases hdbn : List.lookup "database" kwargs with
          | none => simp [hhost, huser, hpw, hdbn] at hok
          | some dbn =>
            simp only [hhost, huser, hpw, hdbn] at hok
            exact ⟨host, user, pw, dbn, rfl, rfl, rfl, rfl,
              finishEngine_ok_url _ _ _ hok⟩

/-- C9 counterexample to the claim as stated: with db=sqlite and a path
present, none of the claim's failure conditions holds, yet construction
fails because `--timeout=soon` makes `int(kwargs.get('timeout', 15))`
raise. -/
theorem claim_C9_counterexample :
    requiredMissing [("db", "sqlite"), ("path", "db.sqlite"), ("timeout", "soon")] =
        false ∧
      isErr (mkInterface [("db", "sqlite"), ("path", "db.sqlite"), ("timeout", "soon")]) =
        true :=
  ⟨rfl, rfl⟩

/-- C9 witness: a missing-field configuration is rejected, and a full mysql
configuration with a port builds the URL with the port appended to the
host. -/
theorem claim_C9_witness :
    isErr (mkInterface [("db", "mysql"), ("host", "h")]) = true ∧
      (∃ host user password database,
        List.lookup "host"
              [("db", "mysql"), ("host", "h"), ("port", "3306"), ("user", "u"),
                ("password", "pw"), ("database", "d")] = some host ∧
          List.lookup "user"
                [("db", "mysql"), ("host", "h"), ("port", "3306"), ("user", "u"),
                  ("password", "pw"), ("database", "d")] = some user ∧
            List.lookup "password"
                  [("db", "mysql"), ("host", "h"), ("port", "3306"), ("user", "u"),
                    ("password", "pw"), ("database", "d")] = some password ∧
              List.lookup "database"
                    [("db", "mysql"), ("host", "h"), ("port", "3306"), ("user", "u"),
                      ("password", "pw"), ("database", "d")] = some database ∧
                EngineCfg.url
                    { url := "mysql+pymysql://u:pw@h:3306/d", echo := false,
                      poolTimeout := 15, debug := false, kwargs := [("db", "mysql")] } =
                  (if ("mysql" : String) = "postgresql" then "postgresql+psycopg2://"
                    else "mysql+pymysql://") ++
                    user ++ ":" ++ password ++ "@" ++
                    (match
                        List.lookup "port"
                          [("db", "mysql"), ("host", "h"), ("port", "3306"), ("user", "u"),
                            ("password", "pw"), ("database", "d")] with
                     | some p => host ++ ":" ++ p
                     | none => host) ++ "/" ++ database) := by
  constructor
  · rw [claim_C9_config_validation.1]
    rfl
  · exact claim_C9_config_validation.2
      [("db", "mysql"), ("host", "h"), ("port", "3306"), ("user", "u"),
        ("password", "pw"), ("database", "d")]
      "mysql"
      { url := "mysql+pymysql://u:pw@h:3306/d", echo := false, poolTimeout := 15,
        debug := false, kwargs := [("db", "mysql")] }
      rfl (Or.inl rfl) rfl

/-- C2 witness: the diff characterization applied at the spec's instance,
with the duplicate-free name hypotheses discharged concretely. -/
theorem claim_C2_witness :
    (alterDiff
          [⟨"a", false, false, ColumnTypes.INTEGER⟩,
            ⟨"b", false, false, ColumnTypes.INTEGER⟩,
            ⟨"c", false, false, ColumnTypes.INTEGER⟩]
          [⟨"b", false, false, ColumnTypes.INTEGER⟩,
            ⟨"c", false, false, ColumnTypes.INTEGER⟩,
            ⟨"d", false, false, ColumnTypes.INTEGER⟩]).1 =
        List.filter
          (fun c => decide
            (c.name ∉
              List.map Column.name
                [⟨"a", false, false, ColumnTypes.INTEGER⟩,
                  ⟨"b", false, false, ColumnTypes.INTEGER⟩,
                  ⟨"c", false, false, ColumnTypes.INTEGER⟩]))
          [⟨"b", false, false, ColumnTypes.INTEGER⟩,
            ⟨"c", false, false, ColumnTypes.INTEGER⟩,
            ⟨"d", false, false, ColumnTypes.INTEGER⟩] ∧
      (alterDiff
            [⟨"a", false, false, ColumnTypes.INTEGER⟩,
              ⟨"b", false, false, ColumnTypes.INTEGER⟩,
              ⟨"c", false, false, ColumnTypes.INTEGER⟩]
            [⟨"b", false, false, ColumnTypes.INTEGER⟩,
              ⟨"c", false, false, ColumnTypes.INTEGER⟩,
              ⟨"d", false, false, ColumnTypes.INTEGER⟩]).2 =
        List.map Column.name
          (List.filter
            (fun c => decide
              (c.name ∉
                List.map Column.name
                  [⟨"b", false, false, ColumnTypes.INTEGER⟩,
                    ⟨"c", false, false, ColumnTypes.INTEGER⟩,
                    ⟨"d", false, false, ColumnTypes.INTEGER⟩]))
            [⟨"a", false, false, ColumnTypes.INTEGER⟩,
              ⟨"b", false, false, ColumnTypes.INTEGER⟩,
              ⟨"c", false, false, ColumnTypes.INTEGER⟩]) :=
  claim_C2_alter_table_diff.1
    [⟨"a", false, false, ColumnTypes.INTEGER⟩, ⟨"b", false, false, ColumnTypes.INTEGER⟩,
      ⟨"c", false, false, ColumnTypes.INTEGER⟩]
    [⟨"b", false, false, ColumnTypes.INTEGER⟩, ⟨"c", false, false, ColumnTypes.INTEGER⟩,
      ⟨"d", false, false, ColumnTypes.INTEGER⟩] (by decide) (by decide)
